import Mathlib

/-
  Verification of the conversation-state engine of the whatsapp-bot repository.

  Shallow embedding of:
  - src/core/state-manager.ts  (class StateManager)        — namespace StateManager
  - src/core/message-handler.ts (class MessageHandler)     — handleMessage and helpers
  - src/commands/admin.ts      (the estados command)       — estadosListar / estadosLimparTodos
  - src/config.ts              (the constants the core reads)

  Conventions of the embedding:
  - Timestamps are modelled as natural numbers (milliseconds since the epoch).
    The source stores them as ISO strings and converts back with new Date(s).getTime();
    that conversion is injective, so a numeric timestamp is an equivalent representation.
  - JavaScript `Record<string, any>` payloads are modelled by the inductive `JValue` of
    JSON values; an object (`JFields`) is a sequence of key/value fields in insertion
    order, mirroring a JS object's own-property order.
  - The `Map<string, UserState>` of StateManager is an association list `Store` with
    JS Map semantics: `set` replaces in place or appends, `delete` removes the entry,
    iteration follows insertion order.
  - JavaScript truthiness of `x || y` on numbers/strings/undefined is modelled
    explicitly (0, "" and undefined are falsy): see jsOrNat and jsTruthyStr.
  - Handlers are external code; they are modelled as scripts of the operations the
    router hands them (the FlowContext closures plus sending and throwing), which is
    exactly the interface src/core/message-handler.ts exposes to them.
-/

namespace WaBot

mutual
/-- A JSON value, as carried by the `data` field of a user state. -/
inductive JValue where
  | null : JValue
  | bool (b : Bool) : JValue
  | num (n : Int) : JValue
  | str (s : String) : JValue
  | arr (items : JList) : JValue
  | obj (fields : JFields) : JValue
deriving DecidableEq, Repr

/-- A JSON array's element list. -/
inductive JList where
  | nil : JList
  | cons (head : JValue) (tail : JList) : JList
deriving DecidableEq, Repr

/-- A JSON object: string-keyed fields in insertion order. -/
inductive JFields where
  | nil : JFields
  | cons (key : String) (value : JValue) (tail : JFields) : JFields
deriving DecidableEq, Repr
end

/-- Property lookup on a JS object (first matching key). -/
def jGet : JFields → String → Option JValue
  | JFields.nil, _ => none
  | JFields.cons k v t, key => if k = key then some v else jGet t key

/-- Concatenation of two field sequences. -/
def jAppend : JFields → JFields → JFields
  | JFields.nil, r => r
  | JFields.cons k v t, r => JFields.cons k v (jAppend t r)

/-- The base part of the object spread `{...base, ...patch}`: every key of `base`
keeps its position but takes the value from `patch` when `patch` has that key. -/
def jOverride (patch : JFields) : JFields → JFields
  | JFields.nil => JFields.nil
  | JFields.cons k v t => JFields.cons k ((jGet patch k).getD v) (jOverride patch t)

/-- The patch part of the object spread: the fields of `patch` whose key does not
occur in `base`, in `patch` order. -/
def jRestrictNew (base : JFields) : JFields → JFields
  | JFields.nil => JFields.nil
  | JFields.cons k v t =>
    if (jGet base k).isSome then jRestrictNew base t
    else JFields.cons k v (jRestrictNew base t)

/-- The JS object spread `{...base, ...patch}`. This is the merge
`state.data = { ...state.data, ...data }` performed by StateManager.updateState
(src/core/state-manager.ts line 132): one level deep, patch values replace base
values wholesale. -/
def spreadMerge (base patch : JFields) : JFields :=
  jAppend (jOverride patch base) (jRestrictNew base patch)

/-- One user's conversation state (interface UserState in src/types, fields as written
by StateManager.createState). -/
structure UserState where
  pluginName : String
  currentState : String
  createdAt : Nat
  updatedAt : Nat
  data : JFields
deriving DecidableEq, Repr

/-- The in-memory `Map<string, UserState>` of StateManager. -/
abbrev Store := List (String × UserState)

/-- First-match lookup in an association list (JS Map access by key). -/
def alGet {α : Type} : List (String × α) → String → Option α
  | [], _ => none
  | kv :: t, k => if kv.1 = k then some kv.2 else alGet t k

/-- JS Map.set: replace the entry in place if the key is present, otherwise append
at the end (insertion order preserved). -/
def alSet {α : Type} : List (String × α) → String → α → List (String × α)
  | [], k, v => [(k, v)]
  | kv :: t, k, v => if kv.1 = k then (k, v) :: t else kv :: alSet t k v

/-- JS Map.delete: remove the entry with the given key. -/
def alDelete {α : Type} : List (String × α) → String → List (String × α)
  | [], _ => []
  | kv :: t, k => if kv.1 = k then t else kv :: alDelete t k

/-- config.prefix in src/config.ts. -/
def configCommandMarker : String := "!"

/-- config.states.maxAgeHours in src/config.ts. -/
def configStatesMaxAgeHours : Nat := 24

/-- config.ownerNumber in src/config.ts. -/
def configOwnerNumber : String := "5567998808948"

/-- JavaScript `a || b` on an optional number: `undefined` and `0` are falsy. -/
def jsOrNat (a : Option Nat) (b : Nat) : Nat :=
  match a with
  | some n => if n = 0 then b else n
  | none => b

/-- JavaScript truthiness filter on an optional string: `undefined` and `""` are falsy. -/
def jsTruthyStr (a : Option String) : Option String :=
  match a with
  | some s => if s = "" then none else some s
  | none => none

namespace StateManager

/-- StateManager.getState: `this.states.get(userId) || null`. -/
def getState (st : Store) (userId : String) : Option UserState :=
  alGet st userId

/-- StateManager.setState: `this.states.set(userId, state)`. -/
def setState (st : Store) (userId : String) (state : UserState) : Store :=
  alSet st userId state

/-- StateManager.updateState (src/core/state-manager.ts lines 122-139): returns false
if the user has no state; otherwise sets currentState, spread-merges the optional
data patch into state.data, re-sets the entry and returns true.
Note: the source does not touch updatedAt here. -/
def updateState (st : Store) (userId currentState : String) (data : Option JFields) :
    Bool × Store :=
  match alGet st userId with
  | none => (false, st)
  | some state =>
    let state1 : UserState :=
      { state with
        currentState := currentState
        data := match data with
                | some d => spreadMerge state.data d
                | none => state.data }
    (true, alSet st userId state1)

/-- StateManager.createState (lines 148-164): unconditionally sets a fresh state with
createdAt = updatedAt = now and data defaulting to the empty object. -/
def createState (st : Store) (userId pluginName initialState : String)
    (data : Option JFields) (now : Nat) : Store :=
  alSet st userId
    { pluginName := pluginName
      currentState := initialState
      createdAt := now
      updatedAt := now
      data := data.getD JFields.nil }

/-- StateManager.clearState (lines 171-180): returns whether a state existed and
deletes it. -/
def clearState (st : Store) (userId : String) : Bool × Store :=
  ((alGet st userId).isSome, alDelete st userId)

/-- StateManager.isInState (lines 188-191). -/
def isInState (st : Store) (userId stateName : String) : Bool :=
  match alGet st userId with
  | some s => s.currentState = stateName
  | none => false

/-- StateManager.getUsersInState (lines 209-219): the users whose currentState equals
the given name, in map order. -/
def getUsersInState (st : Store) (stateName : String) : List String :=
  (st.filter (fun kv => kv.2.currentState = stateName)).map (fun kv => kv.1)

/-- StateManager.cleanupOldStates (lines 243-265). The effective age limit is the JS
expression `maxAgeHours || config.states?.maxAgeHours || 24`, so a supplied 0 falls
back to the configured value. A state is removed when `now - updatedAt > maxAge` in
milliseconds (the subtraction is over signed numbers). Returns the removal count and
the remaining map. -/
def cleanupOldStates (st : Store) (maxAgeHours : Option Nat) (now : Nat) : Nat × Store :=
  let maxAge := jsOrNat maxAgeHours (jsOrNat (some configStatesMaxAgeHours) 24)
  let maxAgeMs : Int := (maxAge : Int) * 60 * 60 * 1000
  let isOld : String × UserState → Bool :=
    fun kv => decide ((now : Int) - (kv.2.updatedAt : Int) > maxAgeMs)
  ((st.filter isOld).length, st.filter (fun kv => ! isOld kv))

/-- StateManager.saveStates (lines 74-94): the states map is written out entry by
entry as one JSON object. The persisted document is modelled as the entry list;
JSON.stringify followed by JSON.parse is the identity on such a document (all
values of the embedding are JSON-serializable by construction). -/
def saveStates (st : Store) : List (String × UserState) :=
  st

/-- StateManager.loadStates (lines 49-69) on a fresh (empty) store: if the file is
absent, start empty; otherwise insert every entry of the parsed object into the map
with Map.set. -/
def loadStates (fileData : Option (List (String × UserState))) : Store :=
  match fileData with
  | some entries => entries.foldl (fun m kv => alSet m kv.1 kv.2) []
  | none => []

end StateManager

/-- The shape of an inbound message's content (proto.IWebMessageInfo.message), keeping
the variants MessageHandler inspects; a real message has exactly one of them set. -/
inductive MsgBody where
  | conversation (text : String) : MsgBody
  | extendedText (text : Option String) : MsgBody
  | buttonsResponse (selectedButtonId : Option String) (selectedDisplayText : Option String) : MsgBody
  | listResponse (title : Option String) (selectedRowId : Option String) : MsgBody
  | pollResponse : MsgBody
  | otherKind : MsgBody

/-- An inbound message: `key` is msg.key.remoteJid (none when msg.key or the jid is
absent), `body` is msg.message (none when absent). -/
structure Msg where
  key : Option String
  body : Option MsgBody

/-- MessageHandler.extractMessageContent (src/core/message-handler.ts lines 276-292):
text of a conversation, the text of an extended text message, the display text of a
button reply, the title of a list reply, and the empty string otherwise. -/
def extractMessageContent : MsgBody → String
  | MsgBody.conversation t => t
  | MsgBody.extendedText t => t.getD ""
  | MsgBody.buttonsResponse _ disp => disp.getD ""
  | MsgBody.listResponse title _ => title.getD ""
  | MsgBody.pollResponse => ""
  | MsgBody.otherKind => ""

/-- One step a handler may take through the interface the router hands it: the three
FlowContext closures, sending a reply, or throwing. -/
inductive HandlerAction where
  | createState (initialState : String) (data : Option JFields) : HandlerAction
  | updateState (newState : String) (data : Option JFields) : HandlerAction
  | clearState : HandlerAction
  | send (text : String) : HandlerAction
  | throwErr (message : String) : HandlerAction
deriving DecidableEq, Repr

/-- A registered handler: `arity` is the JS function's declared parameter count
(the router treats `handler.length > 1` as "supports states"), `script` its behaviour. -/
structure Handler where
  arity : Nat
  script : List HandlerAction
deriving DecidableEq, Repr

/-- The command registry `Map<string, Command>` of MessageHandler. -/
abbrev Registry := List (String × Handler)

/-- Which FlowContext closures a dispatch hands to the handler:
stateCtx for a state-continuation dispatch (createState keeps the current owner,
updateState goes straight through), cmdCtx for a command dispatch whose handler
declares more than one parameter (createState derives the owner from the command
name, updateState is guarded by whether the user had a state when the message
arrived), and plain for a one-parameter command handler (no closures supplied:
using one throws). -/
inductive CtxKind where
  | stateCtx (ownerPlugin : String) : CtxKind
  | cmdCtx (commandName : String) (hadState : Bool) : CtxKind
  | plain : CtxKind

/-- Whether a character list starts with the given pattern (String.prototype.startsWith,
written structurally so the kernel can evaluate it). -/
def charsStartWith : List Char → List Char → Bool
  | _, [] => true
  | [], _ :: _ => false
  | c :: cs, p :: ps => c = p && charsStartWith cs ps

/-- JS `s.startsWith(pat)`. -/
def jsStartsWith (s pat : String) : Bool :=
  charsStartWith s.toList pat.toList

/-- The whitespace characters JS trim strips (the ones that occur in chat text). -/
def isWsChar (ch : Char) : Bool :=
  ch = ' ' || ch = '\t' || ch = '\n' || ch = '\r'

/-- JS `s.trim()` on a character list. -/
def trimChars (l : List Char) : List Char :=
  ((l.dropWhile isWsChar).reverse.dropWhile isWsChar).reverse

/-- JS `s.split(' ')` on a character list: the empty string yields one empty part. -/
def splitOnSpace : List Char → List (List Char)
  | [] => [[]]
  | c :: cs =>
    let r := splitOnSpace cs
    if c = ' ' then [] :: r
    else
      match r with
      | [] => [[c]]
      | h :: t => (c :: h) :: t

/-- ASCII lowercasing of one character (JS toLowerCase on the ASCII command names
this bot registers). -/
def charToLower (ch : Char) : Char :=
  if 'A' ≤ ch ∧ ch ≤ 'Z' then Char.ofNat (ch.toNat + 32) else ch

/-- The plugin name the CommandDispatch createState closure derives
(src/core/message-handler.ts line 185): `commandName.split(':')[0] || 'core'`. -/
def pluginOfCommand (commandName : String) : String :=
  let h := String.mk (commandName.toList.takeWhile (fun ch => ch ≠ ':'))
  if h = "" then "core" else h

/-- The createState closure of each dispatch kind (lines 77-79 and 183-187). -/
def ctxCreate (ctx : CtxKind) (sender : String) (st : Store) (initialState : String)
    (data : Option JFields) (now : Nat) : Store :=
  match ctx with
  | CtxKind.stateCtx owner => StateManager.createState st sender owner initialState data now
  | CtxKind.cmdCtx commandName _ =>
      StateManager.createState st sender (pluginOfCommand commandName) initialState data now
  | CtxKind.plain => st

/-- The updateState closure of each dispatch kind (lines 81-83 and 189-191): the
command-dispatch closure first tests the userState captured at dispatch time and
returns false without touching the store when it was null. -/
def ctxUpdate (ctx : CtxKind) (sender : String) (st : Store) (newState : String)
    (data : Option JFields) : Bool × Store :=
  match ctx with
  | CtxKind.stateCtx _ => StateManager.updateState st sender newState data
  | CtxKind.cmdCtx _ hadState =>
      if hadState then StateManager.updateState st sender newState data else (false, st)
  | CtxKind.plain => (false, st)

/-- Everything the router can observe or mutate while handling one message: the state
map, the two counters of src/commands/admin.ts, the outbound sends that succeeded,
and a record of each handler dispatch (handler name, messageContent passed) mirroring
the router's "Executando ..." debug log lines. -/
structure World where
  states : Store
  errorCount : Nat
  messageCount : Nat
  sent : List (String × String)
  dispatches : List (String × String)
deriving DecidableEq, Repr

/-- An outbound send: appended when the transport accepts it, dropped (the send threw
and the caller logged it) otherwise. -/
def trySend (sendOk : Bool) (recipient text : String) (w : World) : World :=
  if sendOk then { w with sent := w.sent ++ [(recipient, text)] } else w

/-- Run a handler's script against the FlowContext closures of the given dispatch
kind. An error outcome carries the thrown message and the world exactly as it was at
the throw — the closures apply their mutations eagerly, nothing is rolled back. -/
def runScript (ctx : CtxKind) (sender : String) (now : Nat) :
    List HandlerAction → World → Except (String × World) World
  | [], w => Except.ok w
  | HandlerAction.send text :: rest, w =>
      runScript ctx sender now rest { w with sent := w.sent ++ [(sender, text)] }
  | HandlerAction.throwErr m :: _, w => Except.error (m, w)
  | HandlerAction.createState s d :: rest, w =>
      match ctx with
      | CtxKind.plain => Except.error ("params.createState is not a function", w)
      | _ => runScript ctx sender now rest { w with states := ctxCreate ctx sender w.states s d now }
  | HandlerAction.updateState s d :: rest, w =>
      match ctx with
      | CtxKind.plain => Except.error ("params.updateState is not a function", w)
      | _ => runScript ctx sender now rest { w with states := (ctxUpdate ctx sender w.states s d).2 }
  | HandlerAction.clearState :: rest, w =>
      match ctx with
      | CtxKind.plain => Except.error ("params.clearState is not a function", w)
      | _ => runScript ctx sender now rest { w with states := (StateManager.clearState w.states sender).2 }

/-- The synthetic command name the router resolves for a state continuation
(line 69): `state:<pluginName>:<currentState>`. -/
def stateCommandNameOf (st : UserState) : String :=
  "state:" ++ st.pluginName ++ ":" ++ st.currentState

/-- The command-name parse of lines 166-167:
strip the prefix, trim, split on spaces, lowercase the head. -/
def parseCommandName (content : String) : String :=
  String.mk
    (((splitOnSpace (trimChars (content.toList.drop configCommandMarker.length))).headD
      []).map charToLower)

/-- Lines 164-249: the command-dispatch phase. Resolved handlers run with the
FlowContext closures when they declare more than one parameter; their exceptions are
caught, counted and reported with the command error text (its own failure swallowed);
an unknown command produces the unknown-command notice (its failure swallowed). -/
def commandPhase (cmds : Registry) (content sender : String) (now : Nat) (sendOk : Bool)
    (userState : Option UserState) (w : World) : World :=
  if jsStartsWith content configCommandMarker then
    let commandName := parseCommandName content
    match alGet cmds commandName with
    | some h =>
      let w1 := { w with dispatches := w.dispatches ++ [(commandName, content)] }
      let ctx := if h.arity > 1 then CtxKind.cmdCtx commandName userState.isSome else CtxKind.plain
      match runScript ctx sender now h.script w1 with
      | Except.ok w2 => w2
      | Except.error (m, w2) =>
        trySend sendOk sender ("Erro ao executar o comando " ++ commandName ++ ": " ++ m)
          { w2 with errorCount := w2.errorCount + 1 }
    | none =>
      trySend sendOk sender
        ("Comando desconhecido. Digite " ++ configCommandMarker ++
          "ajuda para ver os comandos disponíveis.") w
  else w

/-- Lines 129-162: the interactive-reply and poll-reply checks that run when no state
handler consumed the message, falling through to the command phase. A button/list
reply with a truthy selected id is acknowledged and processing stops (the
acknowledgement send is unprotected: its failure lands in the outer catch, which only
logs); a poll reply stops processing; everything else reaches the command phase. -/
def postStatePhase (cmds : Registry) (body : MsgBody) (content sender : String) (now : Nat)
    (sendOk : Bool) (userState : Option UserState) (w : World) : World :=
  match body with
  | MsgBody.buttonsResponse selId selDisp =>
    match jsTruthyStr selId with
    | some sid => trySend sendOk sender ("Você selecionou: " ++ ((jsTruthyStr selDisp).getD sid)) w
    | none => commandPhase cmds content sender now sendOk userState w
  | MsgBody.listResponse title rowId =>
    match jsTruthyStr rowId with
    | some sid => trySend sendOk sender ("Você selecionou: " ++ ((jsTruthyStr title).getD sid)) w
    | none => commandPhase cmds content sender now sendOk userState w
  | MsgBody.pollResponse => w
  | _ => commandPhase cmds content sender now sendOk userState w

/-- MessageHandler.handleMessage (src/core/message-handler.ts lines 28-253) for one
inbound message. Shape-invalid and status-broadcast messages are ignored. When the
sender has a state, its updatedAt is refreshed to now and re-set before anything
else; if the step handler `state:<plugin>:<step>` is registered it is dispatched with
the full message content and processing ends there (errors caught, counted, reported
with the state error text); otherwise the message falls through to the
interactive/poll/command phases. -/
def handleMessage (cmds : Registry) (msg : Msg) (now : Nat) (sendOk : Bool) (w : World) : World :=
  match msg.key, msg.body with
  | some sender, some body =>
    if sender = "status@broadcast" then w
    else
      let w0 := { w with messageCount := w.messageCount + 1 }
      let content := extractMessageContent body
      match alGet w0.states sender with
      | some st0 =>
        let st1 := { st0 with updatedAt := now }
        let w1 := { w0 with states := StateManager.setState w0.states sender st1 }
        let scn := stateCommandNameOf st1
        match alGet cmds scn with
        | some h =>
          let w2 := { w1 with dispatches := w1.dispatches ++ [(scn, content)] }
          match runScript (CtxKind.stateCtx st1.pluginName) sender now h.script w2 with
          | Except.ok w3 => w3
          | Except.error (m, w3) =>
            trySend sendOk sender ("Erro ao processar sua mensagem: " ++ m)
              { w3 with errorCount := w3.errorCount + 1 }
        | none => postStatePhase cmds body content sender now sendOk (some st1) w1
      | none => postStatePhase cmds body content sender now sendOk none w0
  | _, _ => w

/-- The listar branch of the estados command (src/commands/admin.ts, case 'listar'):
the users it reports are exactly StateManager.getUsersInState(''). -/
def estadosListar (st : Store) : List String :=
  StateManager.getUsersInState st ""

/-- The limpartodos branch (case 'limpartodos'): iterates over getUsersInState('')
clearing each user and counting the successful clears. -/
def estadosLimparTodos (st : Store) : Nat × Store :=
  (StateManager.getUsersInState st "").foldl
    (fun acc userId =>
      let r := StateManager.clearState acc.2 userId
      (if r.1 then acc.1 + 1 else acc.1, r.2))
    (0, st)

/-- Whether a handler action is one of the three FlowContext state operations. -/
def isStateOp : HandlerAction → Bool
  | HandlerAction.createState _ _ => true
  | HandlerAction.updateState _ _ => true
  | HandlerAction.clearState => true
  | _ => false

/-- A script that never touches conversation state. -/
def noStateOps (script : List HandlerAction) : Bool :=
  script.all (fun a => ! isStateOp a)

/-- Whether the interactive/poll phase consumes the message before the command
phase (a button/list reply with a truthy selected id, or a poll reply). -/
def interactiveIntercepts : MsgBody → Bool
  | MsgBody.buttonsResponse selId _ => (jsTruthyStr selId).isSome
  | MsgBody.listResponse _ rowId => (jsTruthyStr rowId).isSome
  | MsgBody.pollResponse => true
  | _ => false

/-- The world a handler run ends in, whether it returned or threw. -/
def outWorld : Except (String × World) World → World
  | Except.ok w => w
  | Except.error (_, w) => w

/-- Left-biased choice on options (JS `a || b` on object-valued expressions). -/
def optOr {α : Type} : Option α → Option α → Option α
  | some v, _ => some v
  | none, b => b

mutual
/-- Modelled from the spec: the recursive deep merge of two JSON values that C4's
source sentence describes (keys in the patch overwrite, recursively for nested
mappings; keys absent from the patch are preserved). The repository has no such
function; this definition exists only to compare the spec's wording against the
source's one-level spread merge. The fuel argument bounds the recursion depth;
`sizeOf` of the patch always suffices. -/
def deepMergeValFuel : Nat → JValue → JValue → JValue
  | 0, _, p => p
  | Nat.succ n, JValue.obj b, JValue.obj p =>
      JValue.obj (jAppend (deepOverrideFuel n p b) (jRestrictNew b p))
  | Nat.succ _, _, p => p

/-- Modelled from the spec: the base part of the deep merge — every base field keeps
its position; when the patch also has the key, the two values are deep-merged. -/
def deepOverrideFuel : Nat → JFields → JFields → JFields
  | _, _, JFields.nil => JFields.nil
  | n, patch, JFields.cons k v t =>
      JFields.cons k
        (match jGet patch k with
         | some pv => deepMergeValFuel n v pv
         | none => v)
        (deepOverrideFuel n patch t)
end

mutual
/-- Nesting depth of a JSON value (a fuel bound for the spec deep merge). -/
def jvalDepth : JValue → Nat
  | JValue.null => 0
  | JValue.bool _ => 0
  | JValue.num _ => 0
  | JValue.str _ => 0
  | JValue.arr items => jlistDepth items + 1
  | JValue.obj fields => jfieldsDepth fields + 1

/-- Nesting depth of a JSON array's elements. -/
def jlistDepth : JList → Nat
  | JList.nil => 0
  | JList.cons h t => max (jvalDepth h) (jlistDepth t)

/-- Nesting depth of a JSON object's fields. -/
def jfieldsDepth : JFields → Nat
  | JFields.nil => 0
  | JFields.cons _ v t => max (jvalDepth v) (jfieldsDepth t)
end

/-- Modelled from the spec: deep merge of two JSON objects. -/
def deepMergeSpec (base patch : JFields) : JFields :=
  match deepMergeValFuel (jfieldsDepth patch + 1) (JValue.obj base) (JValue.obj patch) with
  | JValue.obj r => r
  | _ => patch

/-- Modelled from the spec: StateStore.update as C2 states it — identical to the
source updateState except that it also refreshes lastActivityAt (updatedAt) to the
invocation time. Exists only to compare the claim's wording against the source. -/
def updateStateSpecC2 (st : Store) (userId nextStep : String) (patch : Option JFields)
    (now : Nat) : Bool × Store :=
  match alGet st userId with
  | none => (false, st)
  | some s =>
    (true, alSet st userId
      { s with
        currentState := nextStep
        updatedAt := now
        data := match patch with
                | some d => spreadMerge s.data d
                | none => s.data })

/-- Modelled from the spec: StateStore.update as C4 states it — the payload becomes
the deep merge of the prior payload and the patch. -/
def updateStateDeepSpec (st : Store) (userId nextStep : String) (patch : Option JFields) :
    Bool × Store :=
  match alGet st userId with
  | none => (false, st)
  | some s =>
    (true, alSet st userId
      { s with
        currentState := nextStep
        data := match patch with
                | some d => deepMergeSpec s.data d
                | none => s.data })

/-- Modelled from the spec: sweepExpired(h) removes exactly the states whose
lastActivityAt is older than h hours before the invocation time, returns the count,
and leaves every other state unchanged. -/
def sweepExpiredSpec (st : Store) (hours : Nat) (now : Nat) : Nat × Store :=
  let isOld : String × UserState → Bool :=
    fun kv => decide ((kv.2.updatedAt : Int) < (now : Int) - (hours : Int) * 60 * 60 * 1000)
  ((st.filter isOld).length, st.filter (fun kv => ! isOld kv))

theorem alGet_alSet {α : Type} (l : List (String × α)) (k u : String) (v : α) :
    alGet (alSet l k v) u = if k = u then some v else alGet l u := by
  induction l with
  | nil =>
    simp only [alSet, alGet]
  | cons kv t ih =>
    by_cases h1 : kv.1 = k
    · simp only [alSet, if_pos h1, alGet]
      by_cases h2 : k = u
      · simp [h2]
      · have h3 : ¬ kv.1 = u := by rw [h1]; exact h2
        simp [h2, h3, alGet]
    · simp only [alSet, if_neg h1, alGet]
      by_cases h2 : kv.1 = u
      · have h3 : ¬ k = u := by
          intro hku
          exact h1 (by rw [h2, hku])
        simp [h2, h3]
      · simp [h2, ih]

theorem alGet_eq_none_of_not_mem {α : Type} (l : List (String × α)) (k : String)
    (h : k ∉ l.map Prod.fst) : alGet l k = none := by
  induction l with
  | nil => rfl
  | cons kv t ih =>
    simp only [List.map_cons, List.mem_cons, not_or] at h
    have h1 : ¬ kv.1 = k := fun he => h.1 he.symm
    simp only [alGet, if_neg h1]
    exact ih h.2

theorem jGet_jAppend : (a b : JFields) → (k : String) →
    jGet (jAppend a b) k = optOr (jGet a k) (jGet b k)
  | JFields.nil, _, _ => rfl
  | JFields.cons ka va t, b, k => by
    by_cases h : ka = k
    · simp [jAppend, jGet, h, optOr]
    · simp [jAppend, jGet, h, jGet_jAppend t b k]

theorem jGet_jOverride (patch : JFields) : (base : JFields) → (k : String) →
    jGet (jOverride patch base) k = (jGet base k).map (fun v => (jGet patch k).getD v)
  | JFields.nil, _ => rfl
  | JFields.cons kb vb t, k => by
    by_cases h : kb = k
    · subst h
      simp [jOverride, jGet]
    · simp [jOverride, jGet, h, jGet_jOverride patch t k]

theorem jGet_jRestrictNew_of_none (base : JFields) : (patch : JFields) → (k : String) →
    jGet base k = none → jGet (jRestrictNew base patch) k = jGet patch k
  | JFields.nil, _, _ => rfl
  | JFields.cons kp vp t, k, h => by
    by_cases hk : kp = k
    · subst hk
      simp [jRestrictNew, jGet, h, jGet_jRestrictNew_of_none base t kp h]
    · by_cases hb : (jGet base kp).isSome
      · simp [jRestrictNew, hb, jGet, hk, jGet_jRestrictNew_of_none base t k h]
      · simp [jRestrictNew, hb, jGet, hk, jGet_jRestrictNew_of_none base t k h]

theorem jGet_spreadMerge (base patch : JFields) (k : String) :
    jGet (spreadMerge base patch) k = optOr (jGet patch k) (jGet base k) := by
  unfold spreadMerge
  rw [jGet_jAppend, jGet_jOverride]
  cases hb : jGet base k with
  | some v =>
    cases hp : jGet patch k <;> simp [optOr, hp]
  | none =>
    rw [jGet_jRestrictNew_of_none base patch k hb]
    cases hp : jGet patch k <;> simp [optOr, hp]

theorem trySend_states (sendOk : Bool) (r t : String) (w : World) :
    (trySend sendOk r t w).states = w.states := by
  cases sendOk <;> rfl

theorem trySend_dispatches (sendOk : Bool) (r t : String) (w : World) :
    (trySend sendOk r t w).dispatches = w.dispatches := by
  cases sendOk <;> rfl

theorem runScript_frame (ctx : CtxKind) (sender : String) (now : Nat)
    (script : List HandlerAction) (w : World) :
    (outWorld (runScript ctx sender now script w)).dispatches = w.dispatches ∧
    (outWorld (runScript ctx sender now script w)).errorCount = w.errorCount ∧
    (outWorld (runScript ctx sender now script w)).messageCount = w.messageCount := by
  induction script generalizing w with
  | nil => exact ⟨rfl, rfl, rfl⟩
  | cons a rest ih =>
    cases a with
    | send t => simpa [runScript] using ih _
    | throwErr m => exact ⟨rfl, rfl, rfl⟩
    | createState s d =>
      cases ctx with
      | plain => exact ⟨rfl, rfl, rfl⟩
      | stateCtx o => simpa [runScript] using ih _
      | cmdCtx c b => simpa [runScript] using ih _
    | updateState s d =>
      cases ctx with
      | plain => exact ⟨rfl, rfl, rfl⟩
      | stateCtx o => simpa [runScript] using ih _
      | cmdCtx c b => simpa [runScript] using ih _
    | clearState =>
      cases ctx with
      | plain => exact ⟨rfl, rfl, rfl⟩
      | stateCtx o => simpa [runScript] using ih _
      | cmdCtx c b => simpa [runScript] using ih _

theorem runScript_states_of_noStateOps (ctx : CtxKind) (sender : String) (now : Nat)
    (script : List HandlerAction) (w : World) (h : noStateOps script = true) :
    (outWorld (runScript ctx sender now script w)).states = w.states := by
  induction script generalizing w with
  | nil => rfl
  | cons a rest ih =>
    simp only [noStateOps, List.all_cons, Bool.and_eq_true] at h
    cases a with
    | send t =>
      have := ih { w with sent := w.sent ++ [(sender, t)] } (by
        simp only [noStateOps]; exact h.2)
      simpa [runScript] using this
    | throwErr m => rfl
    | createState s d => simp [isStateOp] at h
    | updateState s d => simp [isStateOp] at h
    | clearState => simp [isStateOp] at h

theorem alGet_foldl_alSet {α : Type} (l : List (String × α)) :
    ∀ (acc : List (String × α)), (l.map Prod.fst).Nodup → ∀ u,
    alGet (l.foldl (fun m kv => alSet m kv.1 kv.2) acc) u = optOr (alGet l u) (alGet acc u) := by
  induction l with
  | nil =>
    intro acc _ u
    simp [alGet, optOr]
  | cons kv t ih =>
    intro acc hnd u
    simp only [List.map_cons, List.nodup_cons] at hnd
    simp only [List.foldl_cons]
    rw [ih _ hnd.2 u]
    by_cases hu : kv.1 = u
    · subst hu
      have ht : alGet t kv.1 = none := alGet_eq_none_of_not_mem t kv.1 hnd.1
      simp [alGet, ht, optOr, alGet_alSet]
    · simp only [alGet, if_neg hu]
      cases htu : alGet t u with
      | some v => simp [optOr]
      | none => simp [optOr, alGet_alSet, hu]

/-- C2 counterexample: StateManager.updateState leaves updatedAt (lastActivityAt)
untouched — on a state last updated at time 5, an update performed at time 100 keeps
updatedAt = 5, so the source differs from the spec-modelled update (updateStateSpecC2)
that refreshes the timestamp. -/
theorem update_no_refresh_cex :
    (alGet (StateManager.updateState [("u", ⟨"p", "s", 3, 5, JFields.nil⟩)] "u" "next" none).2
        "u").map UserState.updatedAt = some 5 ∧
    StateManager.updateState [("u", ⟨"p", "s", 3, 5, JFields.nil⟩)] "u" "next" none ≠
      updateStateSpecC2 [("u", ⟨"p", "s", 3, 5, JFields.nil⟩)] "u" "next" none 100 := by
  decide

/-- C2 (amended): StateManager.updateState returns false and changes nothing when the
user has no state; when a state exists it returns true, sets currentStep, merges the
patch into the payload (patch keys overwrite, keys absent from the patch are
preserved), leaves every other user and every other field — including updatedAt —
unchanged. It does not refresh lastActivityAt: the router refreshes that timestamp
separately when it dispatches a message. -/
theorem updateState_spec :
    (∀ (st : Store) (u step : String) (patch : Option JFields),
      alGet st u = none → StateManager.updateState st u step patch = (false, st)) ∧
    (∀ (st : Store) (u step : String) (patch : Option JFields) (s0 : UserState),
      alGet st u = some s0 →
      (StateManager.updateState st u step patch).1 = true ∧
      (∀ v, v ≠ u → alGet (StateManager.updateState st u step patch).2 v = alGet st v) ∧
      ∃ s1, alGet (StateManager.updateState st u step patch).2 u = some s1 ∧
        s1.currentState = step ∧ s1.pluginName = s0.pluginName ∧
        s1.createdAt = s0.createdAt ∧ s1.updatedAt = s0.updatedAt ∧
        ∀ k, jGet s1.data k =
          match patch with
          | some p => optOr (jGet p k) (jGet s0.data k)
          | none => jGet s0.data k) := by
  constructor
  · intro st u step patch h
    simp [StateManager.updateState, h]
  · intro st u step patch s0 h
    refine ⟨by simp [StateManager.updateState, h], ?_, ?_⟩
    · intro v hv
      simp only [StateManager.updateState, h]
      rw [alGet_alSet]
      exact if_neg (fun hh => hv hh.symm)
    · refine ⟨{ s0 with
          currentState := step
          data := match patch with
                  | some d => spreadMerge s0.data d
                  | none => s0.data }, ?_, rfl, rfl, rfl, rfl, ?_⟩
      · simp only [StateManager.updateState, h]
        rw [alGet_alSet]
        simp
      · intro k
        cases patch with
        | none => rfl
        | some p => simpa using jGet_spreadMerge s0.data p k

theorem updateState_spec_witness :
    StateManager.updateState ([] : Store) "u" "s" none = (false, []) ∧
    (StateManager.updateState [("u", ⟨"p", "s", 3, 5, JFields.nil⟩)] "u" "n" none).1 = true := by
  constructor
  · exact updateState_spec.1 [] "u" "s" none rfl
  · exact (updateState_spec.2 [("u", ⟨"p", "s", 3, 5, JFields.nil⟩)] "u" "n" none
      ⟨"p", "s", 3, 5, JFields.nil⟩ (by decide)).1

/-- C3 counterexample: a createState issued through the CommandDispatch FlowContext
by a command of plugin beta, for a user whose existing state is owned by plugin
alpha, is not a no-op: it replaces the state, and the new owner is beta. -/
theorem createState_replaces_cex :
    (alGet (ctxCreate (CtxKind.cmdCtx "beta:go" true) "u"
        [("u", ⟨"alpha", "s", 0, 0, JFields.nil⟩)] "start" none 50) "u").map
      UserState.pluginName = some "beta" ∧
    ctxCreate (CtxKind.cmdCtx "beta:go" true) "u"
        [("u", ⟨"alpha", "s", 0, 0, JFields.nil⟩)] "start" none 50 ≠
      [("u", ⟨"alpha", "s", 0, 0, JFields.nil⟩)] := by
  decide

/-- C3 (amended): StateManager.createState replaces any existing state
unconditionally — the same-owner call restarts the flow as the claim says, but a
different-owner call also replaces the state (there is no ownership guard and no
silent no-op); the new state carries the caller's owner, the given step and payload,
and fresh timestamps, and every other user's state is untouched. -/
theorem createState_unconditional (st : Store) (userId owner step : String)
    (d : Option JFields) (now : Nat) :
    alGet (StateManager.createState st userId owner step d now) userId =
      some ⟨owner, step, now, now, d.getD JFields.nil⟩ ∧
    ∀ v, v ≠ userId →
      alGet (StateManager.createState st userId owner step d now) v = alGet st v := by
  constructor
  · simp [StateManager.createState, alGet_alSet]
  · intro v hv
    simp only [StateManager.createState]
    rw [alGet_alSet]
    exact if_neg (fun hh => hv hh.symm)

theorem createState_unconditional_witness :
    alGet (StateManager.createState [("u", ⟨"alpha", "s", 0, 0, JFields.nil⟩)]
        "u" "beta" "start" none 50) "u" = some ⟨"beta", "start", 50, 50, JFields.nil⟩ ∧
    alGet (StateManager.createState [("u", ⟨"alpha", "s", 0, 0, JFields.nil⟩)]
        "u" "beta" "start" none 50) "v" =
      alGet [("u", ⟨"alpha", "s", 0, 0, JFields.nil⟩)] "v" := by
  constructor
  · exact (createState_unconditional [("u", ⟨"alpha", "s", 0, 0, JFields.nil⟩)]
      "u" "beta" "start" none 50).1
  · exact (createState_unconditional [("u", ⟨"alpha", "s", 0, 0, JFields.nil⟩)]
      "u" "beta" "start" none 50).2 "v" (by decide)

/-- C4 counterexample: the merge performed by updateState is one level deep, not the
recursive deep merge the claim states. With prior payload a = the nested object with
x = 1 and y = 2, and patch a = the nested object with only x = 3, the source replaces
the whole nested object (y is lost), while the deep merge of the claim keeps y = 2. -/
theorem update_shallow_not_deep_cex :
    (alGet (StateManager.updateState
        [("u", ⟨"p", "s", 0, 0,
          JFields.cons "a" (JValue.obj (JFields.cons "x" (JValue.num 1)
            (JFields.cons "y" (JValue.num 2) JFields.nil))) JFields.nil⟩)]
        "u" "s2"
        (some (JFields.cons "a" (JValue.obj (JFields.cons "x" (JValue.num 3) JFields.nil))
          JFields.nil))).2 "u").map UserState.data =
      some (JFields.cons "a" (JValue.obj (JFields.cons "x" (JValue.num 3) JFields.nil))
        JFields.nil) ∧
    StateManager.updateState
        [("u", ⟨"p", "s", 0, 0,
          JFields.cons "a" (JValue.obj (JFields.cons "x" (JValue.num 1)
            (JFields.cons "y" (JValue.num 2) JFields.nil))) JFields.nil⟩)]
        "u" "s2"
        (some (JFields.cons "a" (JValue.obj (JFields.cons "x" (JValue.num 3) JFields.nil))
          JFields.nil)) ≠
      updateStateDeepSpec
        [("u", ⟨"p", "s", 0, 0,
          JFields.cons "a" (JValue.obj (JFields.cons "x" (JValue.num 1)
            (JFields.cons "y" (JValue.num 2) JFields.nil))) JFields.nil⟩)]
        "u" "s2"
        (some (JFields.cons "a" (JValue.obj (JFields.cons "x" (JValue.num 3) JFields.nil))
          JFields.nil)) := by
  decide

/-- C4 (amended): updateState never changes ownerPlugin, and the resulting payload is
the one-level spread merge of the prior payload and the patch: top-level keys present
in the patch overwrite the prior value wholesale (a nested mapping is replaced, not
recursively merged), top-level keys absent from the patch are preserved. -/
theorem updateState_shallow_merge (st : Store) (u nextStep : String) (patch : JFields)
    (s0 : UserState) (h : alGet st u = some s0) :
    ∃ s1, alGet (StateManager.updateState st u nextStep (some patch)).2 u = some s1 ∧
      s1.pluginName = s0.pluginName ∧
      s1.data = spreadMerge s0.data patch ∧
      ∀ k, jGet s1.data k = optOr (jGet patch k) (jGet s0.data k) := by
  simp only [StateManager.updateState, h]
  refine ⟨{ s0 with currentState := nextStep, data := spreadMerge s0.data patch },
    ?_, rfl, rfl, ?_⟩
  · rw [alGet_alSet]
    simp
  · intro k
    exact jGet_spreadMerge s0.data patch k

theorem updateState_shallow_merge_witness :
    ∃ s1, alGet (StateManager.updateState [("u", ⟨"p", "s", 0, 0, JFields.nil⟩)] "u" "s2"
        (some (JFields.cons "k" (JValue.num 7) JFields.nil))).2 "u" = some s1 ∧
      s1.pluginName = "p" ∧
      s1.data = spreadMerge JFields.nil (JFields.cons "k" (JValue.num 7) JFields.nil) ∧
      ∀ k, jGet s1.data k =
        optOr (jGet (JFields.cons "k" (JValue.num 7) JFields.nil) k) (jGet JFields.nil k) :=
  updateState_shallow_merge [("u", ⟨"p", "s", 0, 0, JFields.nil⟩)] "u" "s2"
    (JFields.cons "k" (JValue.num 7) JFields.nil) ⟨"p", "s", 0, 0, JFields.nil⟩ (by decide)

/-- C5 counterexample: sweepExpired(0) is not honoured — the JS fallback
`maxAgeHours || config || 24` treats 0 as absent, so a state one hour old (older than
0 hours) is kept and the count is 0, while the spec-modelled sweep removes it. -/
theorem sweep_zero_hours_cex :
    StateManager.cleanupOldStates [("u", ⟨"p", "s", 0, 0, JFields.nil⟩)] (some 0) 3600000 =
      (0, [("u", ⟨"p", "s", 0, 0, JFields.nil⟩)]) ∧
    sweepExpiredSpec [("u", ⟨"p", "s", 0, 0, JFields.nil⟩)] 0 3600000 = (1, []) := by
  decide

/-- C5 (amended): for every positive age threshold h (hours), cleanupOldStates
removes exactly the states whose updatedAt is older than h hours before the
invocation time, returns the removal count, and leaves every other state entirely
unchanged; for h = 0 the source substitutes the configured default (24 hours)
instead of sweeping everything. -/
theorem cleanupOldStates_exact (st : Store) (hours now : Nat) (hp : 1 ≤ hours) :
    StateManager.cleanupOldStates st (some hours) now = sweepExpiredSpec st hours now := by
  have hz : ¬ hours = 0 := by omega
  have hpred : ∀ kv : String × UserState,
      (decide ((now : Int) - (kv.2.updatedAt : Int) > (hours : Int) * 60 * 60 * 1000)) =
      (decide ((kv.2.updatedAt : Int) < (now : Int) - (hours : Int) * 60 * 60 * 1000)) := by
    intro kv
    exact decide_eq_decide.mpr (by constructor <;> (intro hx; omega))
  unfold StateManager.cleanupOldStates sweepExpiredSpec
  simp only [jsOrNat, if_neg hz]
  rw [List.filter_congr (fun x _ => hpred x)]
  rw [List.filter_congr (fun x _ => congrArg Bool.not (hpred x))]

theorem cleanupOldStates_exact_witness :
    StateManager.cleanupOldStates [("u", ⟨"p", "s", 0, 0, JFields.nil⟩)] (some 1) 7200000 =
      sweepExpiredSpec [("u", ⟨"p", "s", 0, 0, JFields.nil⟩)] 1 7200000 :=
  cleanupOldStates_exact [("u", ⟨"p", "s", 0, 0, JFields.nil⟩)] 1 7200000 (by decide)

/-- C6: saveStates followed by loadStates into a fresh empty store reconstructs a
state map that agrees with the original on every user, field for field (the map keys
are unique, the invariant of the source Map). -/
theorem persist_load_roundtrip (st : Store) (h : (st.map Prod.fst).Nodup) :
    ∀ u, alGet (StateManager.loadStates (some (StateManager.saveStates st))) u = alGet st u := by
  intro u
  unfold StateManager.loadStates StateManager.saveStates
  rw [alGet_foldl_alSet st [] h u]
  cases hu : alGet st u <;> simp [optOr, alGet]

theorem persist_load_roundtrip_witness :
    alGet (StateManager.loadStates (some (StateManager.saveStates
        [("u", ⟨"p", "s", 1, 2, JFields.nil⟩), ("v", ⟨"q", "t", 3, 4, JFields.nil⟩)]))) "v" =
      alGet [("u", ⟨"p", "s", 1, 2, JFields.nil⟩), ("v", ⟨"q", "t", 3, 4, JFields.nil⟩)] "v" :=
  persist_load_roundtrip
    [("u", ⟨"p", "s", 1, 2, JFields.nil⟩), ("v", ⟨"q", "t", 3, 4, JFields.nil⟩)]
    (by decide) "v"

/-- C9: the estados listar and limpartodos branches call getUsersInState('') — which
matches only states whose currentStep is the empty string — so on a map holding one
user whose flow is at step menu, listar reports no active states and limpartodos
clears nothing, although the user's state exists; this contradicts the command's own
help text (list all active states, clear all states). -/
theorem estados_empty_filter_bug :
    estadosListar [("u@s.whatsapp.net", ⟨"form", "menu", 0, 0, JFields.nil⟩)] = [] ∧
    estadosLimparTodos [("u@s.whatsapp.net", ⟨"form", "menu", 0, 0, JFields.nil⟩)] =
      (0, [("u@s.whatsapp.net", ⟨"form", "menu", 0, 0, JFields.nil⟩)]) ∧
    StateManager.getState [("u@s.whatsapp.net", ⟨"form", "menu", 0, 0, JFields.nil⟩)]
      "u@s.whatsapp.net" = some ⟨"form", "menu", 0, 0, JFields.nil⟩ := by
  decide

theorem trySend_errorCount (sendOk : Bool) (r t : String) (w : World) :
    (trySend sendOk r t w).errorCount = w.errorCount := by
  cases sendOk <;> rfl

theorem commandPhase_skip (cmds : Registry) (content sender : String) (now : Nat)
    (sendOk : Bool) (us : Option UserState) (w : World)
    (hs : jsStartsWith content configCommandMarker = false) :
    commandPhase cmds content sender now sendOk us w = w := by
  simp [commandPhase, hs]

theorem postStatePhase_states_skip (cmds : Registry) (body : MsgBody)
    (content sender : String) (now : Nat) (sendOk : Bool) (us : Option UserState) (w : World)
    (hs : jsStartsWith content configCommandMarker = false) :
    (postStatePhase cmds body content sender now sendOk us w).states = w.states := by
  cases body with
  | buttonsResponse selId selDisp =>
    simp only [postStatePhase]
    cases jsTruthyStr selId with
    | some sid => exact trySend_states _ _ _ _
    | none => rw [commandPhase_skip cmds content sender now sendOk us w hs]
  | listResponse title rowId =>
    simp only [postStatePhase]
    cases jsTruthyStr rowId with
    | some sid => exact trySend_states _ _ _ _
    | none => rw [commandPhase_skip cmds content sender now sendOk us w hs]
  | pollResponse => rfl
  | conversation t =>
    simp only [postStatePhase]
    rw [commandPhase_skip cmds content sender now sendOk us w hs]
  | extendedText t =>
    simp only [postStatePhase]
    rw [commandPhase_skip cmds content sender now sendOk us w hs]
  | otherKind =>
    simp only [postStatePhase]
    rw [commandPhase_skip cmds content sender now sendOk us w hs]

/-- C1: a user with an active state whose step handler is registered has every
message — including one beginning with the command prefix — dispatched to that state
handler with the full prefixed text as the message content; the outcome is exactly
the state-continuation branch (refresh, one dispatch to the state handler, the
caught handler run), so neither the interactive-reply check nor command parsing is
ever reached for that message. -/
theorem routing_stateContinuation_first
    (cmds : Registry) (now : Nat) (sendOk : Bool) (w : World)
    (sender : String) (body : MsgBody) (st0 : UserState) (h : Handler)
    (hnb : sender ≠ "status@broadcast")
    (hst : alGet w.states sender = some st0)
    (hhandler : alGet cmds (stateCommandNameOf { st0 with updatedAt := now }) = some h)
    (hpre : jsStartsWith (extractMessageContent body) configCommandMarker = true) :
    handleMessage cmds ⟨some sender, some body⟩ now sendOk w =
      (match runScript (CtxKind.stateCtx st0.pluginName) sender now h.script
          { w with
            messageCount := w.messageCount + 1
            states := alSet w.states sender { st0 with updatedAt := now }
            dispatches := w.dispatches ++
              [(stateCommandNameOf { st0 with updatedAt := now },
                extractMessageContent body)] } with
       | Except.ok w3 => w3
       | Except.error (m, w3) =>
         trySend sendOk sender ("Erro ao processar sua mensagem: " ++ m)
           { w3 with errorCount := w3.errorCount + 1 }) ∧
    (handleMessage cmds ⟨some sender, some body⟩ now sendOk w).dispatches =
      w.dispatches ++ [(stateCommandNameOf { st0 with updatedAt := now },
        extractMessageContent body)] := by
  have hmain : handleMessage cmds ⟨some sender, some body⟩ now sendOk w =
      (match runScript (CtxKind.stateCtx st0.pluginName) sender now h.script
          { w with
            messageCount := w.messageCount + 1
            states := alSet w.states sender { st0 with updatedAt := now }
            dispatches := w.dispatches ++
              [(stateCommandNameOf { st0 with updatedAt := now },
                extractMessageContent body)] } with
       | Except.ok w3 => w3
       | Except.error (m, w3) =>
         trySend sendOk sender ("Erro ao processar sua mensagem: " ++ m)
           { w3 with errorCount := w3.errorCount + 1 }) := by
    simp only [handleMessage, hnb, if_false, StateManager.setState, hst, hhandler]
  refine ⟨hmain, ?_⟩
  rw [hmain]
  cases hr : runScript (CtxKind.stateCtx st0.pluginName) sender now h.script
      { w with
        messageCount := w.messageCount + 1
        states := alSet w.states sender { st0 with updatedAt := now }
        dispatches := w.dispatches ++
          [(stateCommandNameOf { st0 with updatedAt := now },
            extractMessageContent body)] } with
  | ok w3 =>
    have hf := (runScript_frame (CtxKind.stateCtx st0.pluginName) sender now h.script
      { w with
        messageCount := w.messageCount + 1
        states := alSet w.states sender { st0 with updatedAt := now }
        dispatches := w.dispatches ++
          [(stateCommandNameOf { st0 with updatedAt := now },
            extractMessageContent body)] }).1
    rw [hr] at hf
    exact hf
  | error p =>
    obtain ⟨m, w3⟩ := p
    have hf := (runScript_frame (CtxKind.stateCtx st0.pluginName) sender now h.script
      { w with
        messageCount := w.messageCount + 1
        states := alSet w.states sender { st0 with updatedAt := now }
        dispatches := w.dispatches ++
          [(stateCommandNameOf { st0 with updatedAt := now },
            extractMessageContent body)] }).1
    rw [hr] at hf
    rw [trySend_dispatches]
    exact hf

theorem routing_stateContinuation_first_witness :
    (handleMessage [("state:p:s", ⟨1, [HandlerAction.send "ok"]⟩)]
        ⟨some "u", some (MsgBody.conversation "!menu 1")⟩ 10 true
        ⟨[("u", ⟨"p", "s", 0, 0, JFields.nil⟩)], 0, 0, [], []⟩).dispatches =
      [("state:p:s", "!menu 1")] := by
  have hc := routing_stateContinuation_first
    [("state:p:s", ⟨1, [HandlerAction.send "ok"]⟩)] 10 true
    ⟨[("u", ⟨"p", "s", 0, 0, JFields.nil⟩)], 0, 0, [], []⟩
    "u" (MsgBody.conversation "!menu 1") ⟨"p", "s", 0, 0, JFields.nil⟩
    ⟨1, [HandlerAction.send "ok"]⟩
    (by decide) (by decide) (by decide) (by decide)
  rw [hc.2]
  rfl

theorem postStatePhase_to_commandPhase (cmds : Registry) (body : MsgBody)
    (content sender : String) (now : Nat) (sendOk : Bool) (us : Option UserState) (w : World)
    (hii : interactiveIntercepts body = false) :
    postStatePhase cmds body content sender now sendOk us w =
      commandPhase cmds content sender now sendOk us w := by
  cases body with
  | buttonsResponse selId selDisp =>
    simp only [postStatePhase]
    cases hj : jsTruthyStr selId with
    | some sid =>
      simp only [interactiveIntercepts, hj] at hii
      simp at hii
    | none => rfl
  | listResponse title rowId =>
    simp only [postStatePhase]
    cases hj : jsTruthyStr rowId with
    | some sid =>
      simp only [interactiveIntercepts, hj] at hii
      simp at hii
    | none => rfl
  | pollResponse => simp [interactiveIntercepts] at hii
  | conversation t => rfl
  | extendedText t => rfl
  | otherKind => rfl

theorem mem_keys_alSet {α : Type} (l : List (String × α)) (k : String) (v : α) (x : String)
    (hx : x ∈ (alSet l k v).map Prod.fst) : x ∈ l.map Prod.fst ∨ x = k := by
  induction l with
  | nil =>
    simp only [alSet, List.map_cons, List.map_nil, List.mem_singleton] at hx
    exact Or.inr hx
  | cons kv t ih =>
    by_cases h : kv.1 = k
    · simp only [alSet, if_pos h, List.map_cons, List.mem_cons] at hx
      rcases hx with hx | hx
      · exact Or.inr hx
      · exact Or.inl (List.mem_cons_of_mem _ hx)
    · simp only [alSet, if_neg h, List.map_cons, List.mem_cons] at hx
      rcases hx with hx | hx
      · exact Or.inl (by simp [hx])
      · rcases ih hx with h1 | h1
        · exact Or.inl (List.mem_cons_of_mem _ h1)
        · exact Or.inr h1

theorem nodup_keys_alSet {α : Type} (l : List (String × α)) (k : String) (v : α)
    (h : (l.map Prod.fst).Nodup) : ((alSet l k v).map Prod.fst).Nodup := by
  induction l with
  | nil => simp [alSet]
  | cons kv t ih =>
    simp only [List.map_cons, List.nodup_cons] at h
    by_cases hk : kv.1 = k
    · simp only [alSet, if_pos hk, List.map_cons, List.nodup_cons]
      exact ⟨by rw [← hk]; exact h.1, h.2⟩
    · simp only [alSet, if_neg hk, List.map_cons, List.nodup_cons]
      refine ⟨?_, ih h.2⟩
      intro hmem
      rcases mem_keys_alSet t k v kv.1 hmem with h1 | h1
      · exact h.1 h1
      · exact hk h1

theorem mem_keys_alDelete {α : Type} (l : List (String × α)) (k : String) (x : String)
    (hx : x ∈ (alDelete l k).map Prod.fst) : x ∈ l.map Prod.fst := by
  induction l with
  | nil => simpa [alDelete] using hx
  | cons kv t ih =>
    by_cases h : kv.1 = k
    · simp only [alDelete, if_pos h] at hx
      exact List.mem_cons_of_mem _ hx
    · simp only [alDelete, if_neg h, List.map_cons, List.mem_cons] at hx
      rcases hx with hx | hx
      · exact List.mem_cons.mpr (Or.inl hx)
      · exact List.mem_cons_of_mem _ (ih hx)

theorem nodup_keys_alDelete {α : Type} (l : List (String × α)) (k : String)
    (h : (l.map Prod.fst).Nodup) : ((alDelete l k).map Prod.fst).Nodup := by
  induction l with
  | nil => simp [alDelete]
  | cons kv t ih =>
    simp only [List.map_cons, List.nodup_cons] at h
    by_cases hk : kv.1 = k
    · simp only [alDelete, if_pos hk]
      exact h.2
    · simp only [alDelete, if_neg hk, List.map_cons, List.nodup_cons]
      exact ⟨fun hmem => h.1 (mem_keys_alDelete t k kv.1 hmem), ih h.2⟩

theorem alGet_alDelete_self {α : Type} (l : List (String × α)) (k : String)
    (h : (l.map Prod.fst).Nodup) : alGet (alDelete l k) k = none := by
  induction l with
  | nil => rfl
  | cons kv t ih =>
    simp only [List.map_cons, List.nodup_cons] at h
    by_cases hk : kv.1 = k
    · simp only [alDelete, if_pos hk]
      exact alGet_eq_none_of_not_mem t k (by rw [← hk]; exact h.1)
    · simp only [alDelete, if_neg hk, alGet, if_neg hk]
      exact ih h.2

theorem updateState_keeps_inv (st : Store) (sender s : String) (d : Option JFields)
    (now : Nat) (hN : (st.map Prod.fst).Nodup)
    (hP : ∀ s1, alGet st sender = some s1 → s1.updatedAt = now) :
    ((((StateManager.updateState st sender s d).2).map Prod.fst).Nodup) ∧
    (∀ s1, alGet (StateManager.updateState st sender s d).2 sender = some s1 →
      s1.updatedAt = now) := by
  cases hg : alGet st sender with
  | none =>
    have hid : StateManager.updateState st sender s d = (false, st) := by
      simp [StateManager.updateState, hg]
    rw [hid]
    exact ⟨hN, hP⟩
  | some state =>
    simp only [StateManager.updateState, hg]
    constructor
    · exact nodup_keys_alSet st sender _ hN
    · intro s1 hs1
      rw [alGet_alSet, if_pos rfl] at hs1
      cases hs1
      exact hP state hg

theorem runScript_updatedAt_inv (ctx : CtxKind) (sender : String) (now : Nat)
    (script : List HandlerAction) (w : World)
    (hN : (w.states.map Prod.fst).Nodup)
    (hP : ∀ s1, alGet w.states sender = some s1 → s1.updatedAt = now) :
    ((outWorld (runScript ctx sender now script w)).states.map Prod.fst).Nodup ∧
    ∀ s1, alGet (outWorld (runScript ctx sender now script w)).states sender = some s1 →
      s1.updatedAt = now := by
  induction script generalizing w with
  | nil => exact ⟨hN, hP⟩
  | cons a rest ih =>
    cases a with
    | send t =>
      simpa [runScript] using ih { w with sent := w.sent ++ [(sender, t)] } hN hP
    | throwErr m => exact ⟨hN, hP⟩
    | createState s d =>
      cases ctx with
      | plain => exact ⟨hN, hP⟩
      | stateCtx o =>
        have hP2 : ∀ s1, alGet (alSet w.states sender
            ⟨o, s, now, now, d.getD JFields.nil⟩) sender = some s1 → s1.updatedAt = now := by
          intro s1 hs1
          rw [alGet_alSet, if_pos rfl] at hs1
          cases hs1
          rfl
        simpa [runScript, ctxCreate, StateManager.createState] using
          ih { w with states := alSet w.states sender ⟨o, s, now, now, d.getD JFields.nil⟩ }
            (nodup_keys_alSet w.states sender _ hN) hP2
      | cmdCtx c b =>
        have hP2 : ∀ s1, alGet (alSet w.states sender
            ⟨pluginOfCommand c, s, now, now, d.getD JFields.nil⟩) sender = some s1 →
            s1.updatedAt = now := by
          intro s1 hs1
          rw [alGet_alSet, if_pos rfl] at hs1
          cases hs1
          rfl
        simpa [runScript, ctxCreate, StateManager.createState] using
          ih { w with
              states := alSet w.states sender ⟨pluginOfCommand c, s, now, now, d.getD JFields.nil⟩ }
            (nodup_keys_alSet w.states sender _ hN) hP2
    | updateState s d =>
      cases ctx with
      | plain => exact ⟨hN, hP⟩
      | stateCtx o =>
        have hu := updateState_keeps_inv w.states sender s d now hN hP
        simpa [runScript, ctxUpdate] using
          ih { w with states := (StateManager.updateState w.states sender s d).2 } hu.1 hu.2
      | cmdCtx c b =>
        cases b with
        | false =>
          simpa [runScript, ctxUpdate] using ih w hN hP
        | true =>
          have hu := updateState_keeps_inv w.states sender s d now hN hP
          simpa [runScript, ctxUpdate] using
            ih { w with states := (StateManager.updateState w.states sender s d).2 } hu.1 hu.2
    | clearState =>
      cases ctx with
      | plain => exact ⟨hN, hP⟩
      | stateCtx o =>
        have hP2 : ∀ s1, alGet (alDelete w.states sender) sender = some s1 →
            s1.updatedAt = now := by
          intro s1 hs1
          rw [alGet_alDelete_self w.states sender hN] at hs1
          exact Option.noConfusion hs1
        simpa [runScript, StateManager.clearState] using
          ih { w with states := alDelete w.states sender }
            (nodup_keys_alDelete w.states sender hN) hP2
      | cmdCtx c b =>
        have hP2 : ∀ s1, alGet (alDelete w.states sender) sender = some s1 →
            s1.updatedAt = now := by
          intro s1 hs1
          rw [alGet_alDelete_self w.states sender hN] at hs1
          exact Option.noConfusion hs1
        simpa [runScript, StateManager.clearState] using
          ih { w with states := alDelete w.states sender }
            (nodup_keys_alDelete w.states sender hN) hP2

theorem commandPhase_updatedAt_inv (cmds : Registry) (content sender : String) (now : Nat)
    (sendOk : Bool) (us : Option UserState) (w : World)
    (hN : (w.states.map Prod.fst).Nodup)
    (hP : ∀ s1, alGet w.states sender = some s1 → s1.updatedAt = now) :
    (((commandPhase cmds content sender now sendOk us w).states.map Prod.fst).Nodup) ∧
    ∀ s1, alGet (commandPhase cmds content sender now sendOk us w).states sender = some s1 →
      s1.updatedAt = now := by
  by_cases hm : jsStartsWith content configCommandMarker = true
  · cases hcn : alGet cmds (parseCommandName content) with
    | some h =>
      have hred : commandPhase cmds content sender now sendOk us w =
          (match runScript
              (if h.arity > 1 then CtxKind.cmdCtx (parseCommandName content) us.isSome
               else CtxKind.plain) sender now h.script
              { w with dispatches := w.dispatches ++ [(parseCommandName content, content)] } with
           | Except.ok w2 => w2
           | Except.error (m, w2) =>
             trySend sendOk sender
               ("Erro ao executar o comando " ++ parseCommandName content ++ ": " ++ m)
               { w2 with errorCount := w2.errorCount + 1 }) := by
        simp only [commandPhase, hm, if_true, hcn]
      rw [hred]
      have hinv := runScript_updatedAt_inv
        (if h.arity > 1 then CtxKind.cmdCtx (parseCommandName content) us.isSome
         else CtxKind.plain) sender now h.script
        { w with dispatches := w.dispatches ++ [(parseCommandName content, content)] } hN hP
      cases hr : runScript
          (if h.arity > 1 then CtxKind.cmdCtx (parseCommandName content) us.isSome
           else CtxKind.plain) sender now h.script
          { w with dispatches := w.dispatches ++ [(parseCommandName content, content)] } with
      | ok w2 =>
        rw [hr] at hinv
        exact hinv
      | error p =>
        obtain ⟨m, w2⟩ := p
        rw [hr] at hinv
        simp only [outWorld] at hinv
        constructor
        · rw [trySend_states]
          exact hinv.1
        · intro s1 hs1
          rw [trySend_states] at hs1
          exact hinv.2 s1 hs1
    | none =>
      have hred : commandPhase cmds content sender now sendOk us w =
          trySend sendOk sender
            ("Comando desconhecido. Digite " ++ configCommandMarker ++
              "ajuda para ver os comandos disponíveis.") w := by
        simp only [commandPhase, hm, if_true, hcn]
      rw [hred]
      constructor
      · rw [trySend_states]
        exact hN
      · intro s1 hs1
        rw [trySend_states] at hs1
        exact hP s1 hs1
  · rw [commandPhase_skip cmds content sender now sendOk us w (by
      cases hv : jsStartsWith content configCommandMarker
      · rfl
      · exact absurd hv hm)]
    exact ⟨hN, hP⟩

theorem postStatePhase_updatedAt_inv (cmds : Registry) (body : MsgBody)
    (content sender : String) (now : Nat) (sendOk : Bool) (us : Option UserState) (w : World)
    (hN : (w.states.map Prod.fst).Nodup)
    (hP : ∀ s1, alGet w.states sender = some s1 → s1.updatedAt = now) :
    (((postStatePhase cmds body content sender now sendOk us w).states.map Prod.fst).Nodup) ∧
    ∀ s1, alGet (postStatePhase cmds body content sender now sendOk us w).states sender =
      some s1 → s1.updatedAt = now := by
  cases body with
  | buttonsResponse selId selDisp =>
    simp only [postStatePhase]
    cases jsTruthyStr selId with
    | some sid =>
      refine ⟨by rw [trySend_states]; exact hN, ?_⟩
      intro s1 hs1
      rw [trySend_states] at hs1
      exact hP s1 hs1
    | none => exact commandPhase_updatedAt_inv cmds content sender now sendOk us w hN hP
  | listResponse title rowId =>
    simp only [postStatePhase]
    cases jsTruthyStr rowId with
    | some sid =>
      refine ⟨by rw [trySend_states]; exact hN, ?_⟩
      intro s1 hs1
      rw [trySend_states] at hs1
      exact hP s1 hs1
    | none => exact commandPhase_updatedAt_inv cmds content sender now sendOk us w hN hP
  | pollResponse => exact ⟨hN, hP⟩
  | conversation t => exact commandPhase_updatedAt_inv cmds content sender now sendOk us w hN hP
  | extendedText t => exact commandPhase_updatedAt_inv cmds content sender now sendOk us w hN hP
  | otherKind => exact commandPhase_updatedAt_inv cmds content sender now sendOk us w hN hP

/-- C7: an inbound message from a user with an active state refreshes that state's
updatedAt (lastActivityAt) to the dispatch time, whether or not a step transition
occurs. The refresh is applied before the step handler is even resolved, and every
FlowContext mutation a handler can perform afterwards (a step transition via
updateState, a restart via createState) keeps the user's surviving state stamped
with the dispatch time — so for any registry and any handler behaviour (step handler
present, stepping, throwing, or absent with fall-through to normal processing,
including command dispatch), whatever state the user still has after handleMessage
carries updatedAt = now (first conjunct). When nothing that runs touches state at
all — the step handler's script performs no state operation (for example it only
throws), or the handler is absent and the fall-through triggers no command — the
refreshed state itself is still present (second conjunct). The map's keys are
unique, the invariant of the source JS Map. -/
theorem lastActivity_refreshed
    (cmds : Registry) (now : Nat) (sendOk : Bool) (w : World)
    (sender : String) (body : MsgBody) (st0 : UserState)
    (hnb : sender ≠ "status@broadcast")
    (hnodup : (w.states.map Prod.fst).Nodup)
    (hst : alGet w.states sender = some st0) :
    (∀ s1, alGet (handleMessage cmds ⟨some sender, some body⟩ now sendOk w).states sender =
        some s1 → s1.updatedAt = now) ∧
    ((∀ h, alGet cmds (stateCommandNameOf { st0 with updatedAt := now }) = some h →
        noStateOps h.script = true) →
      (alGet cmds (stateCommandNameOf { st0 with updatedAt := now }) = none →
        jsStartsWith (extractMessageContent body) configCommandMarker = false) →
      alGet (handleMessage cmds ⟨some sender, some body⟩ now sendOk w).states sender =
        some { st0 with updatedAt := now }) := by
  have hN1 : ((alSet w.states sender { st0 with updatedAt := now }).map Prod.fst).Nodup :=
    nodup_keys_alSet w.states sender _ hnodup
  have hP1 : ∀ s1, alGet (alSet w.states sender { st0 with updatedAt := now }) sender =
      some s1 → s1.updatedAt = now := by
    intro s1 hs1
    rw [alGet_alSet, if_pos rfl] at hs1
    cases hs1
    rfl
  constructor
  · cases hc : alGet cmds (stateCommandNameOf { st0 with updatedAt := now }) with
    | some h =>
      have hmain : handleMessage cmds ⟨some sender, some body⟩ now sendOk w =
          (match runScript (CtxKind.stateCtx st0.pluginName) sender now h.script
              { w with
                messageCount := w.messageCount + 1
                states := alSet w.states sender { st0 with updatedAt := now }
                dispatches := w.dispatches ++
                  [(stateCommandNameOf { st0 with updatedAt := now },
                    extractMessageContent body)] } with
           | Except.ok w3 => w3
           | Except.error (m, w3) =>
             trySend sendOk sender ("Erro ao processar sua mensagem: " ++ m)
               { w3 with errorCount := w3.errorCount + 1 }) := by
        simp only [handleMessage, hnb, if_false, StateManager.setState, hst, hc]
      rw [hmain]
      have hinv := runScript_updatedAt_inv (CtxKind.stateCtx st0.pluginName) sender now
        h.script
        { w with
          messageCount := w.messageCount + 1
          states := alSet w.states sender { st0 with updatedAt := now }
          dispatches := w.dispatches ++
            [(stateCommandNameOf { st0 with updatedAt := now },
              extractMessageContent body)] }
        hN1 hP1
      cases hr : runScript (CtxKind.stateCtx st0.pluginName) sender now h.script
          { w with
            messageCount := w.messageCount + 1
            states := alSet w.states sender { st0 with updatedAt := now }
            dispatches := w.dispatches ++
              [(stateCommandNameOf { st0 with updatedAt := now },
                extractMessageContent body)] } with
      | ok w3 =>
        rw [hr] at hinv
        exact hinv.2
      | error p =>
        obtain ⟨m, w3⟩ := p
        rw [hr] at hinv
        simp only [outWorld] at hinv
        intro s1 hs1
        rw [trySend_states] at hs1
        exact hinv.2 s1 hs1
    | none =>
      have hmain : handleMessage cmds ⟨some sender, some body⟩ now sendOk w =
          postStatePhase cmds body (extractMessageContent body) sender now sendOk
            (some { st0 with updatedAt := now })
            { w with
              messageCount := w.messageCount + 1
              states := alSet w.states sender { st0 with updatedAt := now } } := by
        simp only [handleMessage, hnb, if_false, StateManager.setState, hst, hc]
      rw [hmain]
      exact (postStatePhase_updatedAt_inv cmds body (extractMessageContent body) sender now
        sendOk (some { st0 with updatedAt := now })
        { w with
          messageCount := w.messageCount + 1
          states := alSet w.states sender { st0 with updatedAt := now } }
        hN1 hP1).2
  · intro hsome hnone
    cases hc : alGet cmds (stateCommandNameOf { st0 with updatedAt := now }) with
    | some h =>
      have hmain : handleMessage cmds ⟨some sender, some body⟩ now sendOk w =
          (match runScript (CtxKind.stateCtx st0.pluginName) sender now h.script
              { w with
                messageCount := w.messageCount + 1
                states := alSet w.states sender { st0 with updatedAt := now }
                dispatches := w.dispatches ++
                  [(stateCommandNameOf { st0 with updatedAt := now },
                    extractMessageContent body)] } with
           | Except.ok w3 => w3
           | Except.error (m, w3) =>
             trySend sendOk sender ("Erro ao processar sua mensagem: " ++ m)
               { w3 with errorCount := w3.errorCount + 1 }) := by
        simp only [handleMessage, hnb, if_false, StateManager.setState, hst, hc]
      rw [hmain]
      have hrun := runScript_states_of_noStateOps (CtxKind.stateCtx st0.pluginName) sender now
        h.script
        { w with
          messageCount := w.messageCount + 1
          states := alSet w.states sender { st0 with updatedAt := now }
          dispatches := w.dispatches ++
            [(stateCommandNameOf { st0 with updatedAt := now },
              extractMessageContent body)] }
        (hsome h hc)
      cases hr : runScript (CtxKind.stateCtx st0.pluginName) sender now h.script
          { w with
            messageCount := w.messageCount + 1
            states := alSet w.states sender { st0 with updatedAt := now }
            dispatches := w.dispatches ++
              [(stateCommandNameOf { st0 with updatedAt := now },
                extractMessageContent body)] } with
      | ok w3 =>
        rw [hr] at hrun
        simp only [outWorld] at hrun
        show alGet w3.states sender = some { st0 with updatedAt := now }
        rw [hrun]
        simp [alGet_alSet]
      | error p =>
        obtain ⟨m, w3⟩ := p
        rw [hr] at hrun
        simp only [outWorld] at hrun
        show alGet (trySend sendOk sender ("Erro ao processar sua mensagem: " ++ m)
          { w3 with errorCount := w3.errorCount + 1 }).states sender = _
        rw [trySend_states]
        show alGet w3.states sender = _
        rw [hrun]
        simp [alGet_alSet]
    | none =>
      have hmain : handleMessage cmds ⟨some sender, some body⟩ now sendOk w =
          postStatePhase cmds body (extractMessageContent body) sender now sendOk
            (some { st0 with updatedAt := now })
            { w with
              messageCount := w.messageCount + 1
              states := alSet w.states sender { st0 with updatedAt := now } } := by
        simp only [handleMessage, hnb, if_false, StateManager.setState, hst, hc]
      rw [hmain]
      rw [postStatePhase_states_skip _ _ _ _ _ _ _ _ (hnone hc)]
      simp [alGet_alSet]

theorem lastActivity_refreshed_witness :
    (alGet (handleMessage [("state:p:s", ⟨1, [HandlerAction.updateState "s2" none]⟩)]
        ⟨some "u", some (MsgBody.conversation "oi")⟩ 42 true
        ⟨[("u", ⟨"p", "s", 0, 0, JFields.nil⟩)], 0, 0, [], []⟩).states "u").map
      UserState.updatedAt = some 42 ∧
    alGet (handleMessage [("state:p:s", ⟨1, [HandlerAction.throwErr "x"]⟩)]
        ⟨some "u", some (MsgBody.conversation "oi")⟩ 42 true
        ⟨[("u", ⟨"p", "s", 0, 0, JFields.nil⟩)], 0, 0, [], []⟩).states "u" =
      some ⟨"p", "s", 0, 42, JFields.nil⟩ := by
  constructor
  · have hc := (lastActivity_refreshed
      [("state:p:s", ⟨1, [HandlerAction.updateState "s2" none]⟩)] 42 true
      ⟨[("u", ⟨"p", "s", 0, 0, JFields.nil⟩)], 0, 0, [], []⟩
      "u" (MsgBody.conversation "oi") ⟨"p", "s", 0, 0, JFields.nil⟩
      (by decide) (by decide) (by decide)).1
    have hget : alGet (handleMessage
        [("state:p:s", ⟨1, [HandlerAction.updateState "s2" none]⟩)]
        ⟨some "u", some (MsgBody.conversation "oi")⟩ 42 true
        ⟨[("u", ⟨"p", "s", 0, 0, JFields.nil⟩)], 0, 0, [], []⟩).states "u" =
        some ⟨"p", "s2", 0, 42, JFields.nil⟩ := by decide
    rw [hget]
    exact congrArg some (hc ⟨"p", "s2", 0, 42, JFields.nil⟩ hget)
  · have hc := (lastActivity_refreshed
      [("state:p:s", ⟨1, [HandlerAction.throwErr "x"]⟩)] 42 true
      ⟨[("u", ⟨"p", "s", 0, 0, JFields.nil⟩)], 0, 0, [], []⟩
      "u" (MsgBody.conversation "oi") ⟨"p", "s", 0, 0, JFields.nil⟩
      (by decide) (by decide) (by decide)).2
      (fun h hh => by cases hh; decide)
      (fun hh => Option.noConfusion hh)
    exact hc

/-- C8: a handler throw is contained by the router. For both catch sites — a
state-step handler and a dispatched command handler — handleMessage returns normally
(nothing is rethrown), the error counter is incremented by one, the user is sent the
corresponding failure notice when the transport accepts it (a failed notice is
swallowed, leaving everything else identical), and the state map afterwards is
exactly the one at the moment of the throw: no rollback of earlier updates, no
automatic advance. -/
theorem handler_error_contained :
    (∀ (cmds : Registry) (now : Nat) (sendOk : Bool) (w : World)
       (sender : String) (body : MsgBody) (st0 : UserState) (h : Handler)
       (m : String) (w3 : World),
      sender ≠ "status@broadcast" →
      alGet w.states sender = some st0 →
      alGet cmds (stateCommandNameOf { st0 with updatedAt := now }) = some h →
      runScript (CtxKind.stateCtx st0.pluginName) sender now h.script
        { w with
          messageCount := w.messageCount + 1
          states := alSet w.states sender { st0 with updatedAt := now }
          dispatches := w.dispatches ++
            [(stateCommandNameOf { st0 with updatedAt := now },
              extractMessageContent body)] } =
        Except.error (m, w3) →
      (handleMessage cmds ⟨some sender, some body⟩ now sendOk w).states = w3.states ∧
      (handleMessage cmds ⟨some sender, some body⟩ now sendOk w).errorCount =
        w3.errorCount + 1 ∧
      (handleMessage cmds ⟨some sender, some body⟩ now sendOk w).sent =
        (if sendOk then w3.sent ++ [(sender, "Erro ao processar sua mensagem: " ++ m)]
         else w3.sent)) ∧
    (∀ (cmds : Registry) (now : Nat) (sendOk : Bool) (w : World)
       (sender : String) (body : MsgBody) (h : Handler) (m : String) (w3 : World),
      sender ≠ "status@broadcast" →
      alGet w.states sender = none →
      interactiveIntercepts body = false →
      jsStartsWith (extractMessageContent body) configCommandMarker = true →
      alGet cmds (parseCommandName (extractMessageContent body)) = some h →
      1 < h.arity →
      runScript (CtxKind.cmdCtx (parseCommandName (extractMessageContent body)) false)
        sender now h.script
        { w with
          messageCount := w.messageCount + 1
          dispatches := w.dispatches ++
            [(parseCommandName (extractMessageContent body), extractMessageContent body)] } =
        Except.error (m, w3) →
      (handleMessage cmds ⟨some sender, some body⟩ now sendOk w).states = w3.states ∧
      (handleMessage cmds ⟨some sender, some body⟩ now sendOk w).errorCount =
        w3.errorCount + 1 ∧
      (handleMessage cmds ⟨some sender, some body⟩ now sendOk w).sent =
        (if sendOk then
          w3.sent ++ [(sender, "Erro ao executar o comando " ++
            parseCommandName (extractMessageContent body) ++ ": " ++ m)]
         else w3.sent)) := by
  constructor
  · intro cmds now sendOk w sender body st0 h m w3 hnb hst hh hrun
    have hmain : handleMessage cmds ⟨some sender, some body⟩ now sendOk w =
        trySend sendOk sender ("Erro ao processar sua mensagem: " ++ m)
          { w3 with errorCount := w3.errorCount + 1 } := by
      simp only [handleMessage, hnb, if_false, StateManager.setState, hst, hh, hrun]
    rw [hmain]
    refine ⟨trySend_states _ _ _ _, trySend_errorCount _ _ _ _, ?_⟩
    cases sendOk <;> rfl
  · intro cmds now sendOk w sender body h m w3 hnb hst hii hpre hcmd harity hrun
    have hmain : handleMessage cmds ⟨some sender, some body⟩ now sendOk w =
        trySend sendOk sender
          ("Erro ao executar o comando " ++ parseCommandName (extractMessageContent body) ++
            ": " ++ m)
          { w3 with errorCount := w3.errorCount + 1 } := by
      simp only [handleMessage, hnb, if_false, StateManager.setState, hst]
      rw [postStatePhase_to_commandPhase _ _ _ _ _ _ _ _ hii]
      simp only [commandPhase, hpre, if_true, hcmd, harity, Option.isSome_none, hrun]
    rw [hmain]
    refine ⟨trySend_states _ _ _ _, trySend_errorCount _ _ _ _, ?_⟩
    cases sendOk <;> rfl

theorem handler_error_contained_witness :
    ((handleMessage [("state:p:s", ⟨1, [HandlerAction.throwErr "boom"]⟩)]
        ⟨some "u", some (MsgBody.conversation "oi")⟩ 42 true
        ⟨[("u", ⟨"p", "s", 0, 0, JFields.nil⟩)], 0, 0, [], []⟩).errorCount = 1 ∧
      (handleMessage [("state:p:s", ⟨1, [HandlerAction.throwErr "boom"]⟩)]
        ⟨some "u", some (MsgBody.conversation "oi")⟩ 42 true
        ⟨[("u", ⟨"p", "s", 0, 0, JFields.nil⟩)], 0, 0, [], []⟩).states =
        [("u", ⟨"p", "s", 0, 42, JFields.nil⟩)]) ∧
    (handleMessage [("form", ⟨2, [HandlerAction.throwErr "bad"]⟩)]
        ⟨some "u", some (MsgBody.conversation "!form")⟩ 42 false
        ⟨[], 0, 0, [], []⟩).errorCount = 1 := by
  constructor
  · have hc := handler_error_contained.1
      [("state:p:s", ⟨1, [HandlerAction.throwErr "boom"]⟩)] 42 true
      ⟨[("u", ⟨"p", "s", 0, 0, JFields.nil⟩)], 0, 0, [], []⟩
      "u" (MsgBody.conversation "oi") ⟨"p", "s", 0, 0, JFields.nil⟩
      ⟨1, [HandlerAction.throwErr "boom"]⟩ "boom"
      ⟨[("u", ⟨"p", "s", 0, 42, JFields.nil⟩)], 0, 1, [], [("state:p:s", "oi")]⟩
      (by decide) (by decide) (by decide) rfl
    exact ⟨hc.2.1, hc.1⟩
  · have hc := handler_error_contained.2
      [("form", ⟨2, [HandlerAction.throwErr "bad"]⟩)] 42 false
      ⟨[], 0, 0, [], []⟩
      "u" (MsgBody.conversation "!form")
      ⟨2, [HandlerAction.throwErr "bad"]⟩ "bad"
      ⟨[], 0, 1, [], [("form", "!form")]⟩
      (by decide) (by decide) (by decide) (by decide) (by decide) (by decide) rfl
    exact hc.2.1

/-- C10: the updateState FlowContext closure handed to a command dispatched for a
user with no conversation state at dispatch time always returns false and performs no
mutation — the guard tests the userState captured when the message arrived, so even a
createState performed earlier in the same invocation does not enable it; concretely,
a handler script of createState(step, d) then updateState(next, patch) leaves the
user's state at step with payload d and fresh timestamps. -/
theorem cmd_updateState_closure_false :
    (∀ (c sender : String) (st : Store) (s : String) (d : Option JFields),
      ctxUpdate (CtxKind.cmdCtx c false) sender st s d = (false, st)) ∧
    (∀ (cmds : Registry) (now : Nat) (sendOk : Bool) (w : World)
       (sender : String) (body : MsgBody) (h : Handler)
       (step next : String) (dpay patch : Option JFields),
      sender ≠ "status@broadcast" →
      alGet w.states sender = none →
      interactiveIntercepts body = false →
      jsStartsWith (extractMessageContent body) configCommandMarker = true →
      alGet cmds (parseCommandName (extractMessageContent body)) = some h →
      1 < h.arity →
      h.script = [HandlerAction.createState step dpay, HandlerAction.updateState next patch] →
      alGet (handleMessage cmds ⟨some sender, some body⟩ now sendOk w).states sender =
        some ⟨pluginOfCommand (parseCommandName (extractMessageContent body)), step, now, now,
          dpay.getD JFields.nil⟩) := by
  constructor
  · intro c sender st s d
    rfl
  · intro cmds now sendOk w sender body h step next dpay patch hnb hst hii hpre hcmd
      harity hscript
    have hmain : handleMessage cmds ⟨some sender, some body⟩ now sendOk w =
        { w with
          messageCount := w.messageCount + 1
          states := alSet w.states sender
            ⟨pluginOfCommand (parseCommandName (extractMessageContent body)), step, now, now,
              dpay.getD JFields.nil⟩
          dispatches := w.dispatches ++
            [(parseCommandName (extractMessageContent body), extractMessageContent body)] } := by
      simp only [handleMessage, hnb, if_false, StateManager.setState, hst]
      rw [postStatePhase_to_commandPhase _ _ _ _ _ _ _ _ hii]
      simp only [commandPhase, hpre, if_true, hcmd, harity, Option.isSome_none, hscript,
        runScript, ctxCreate, ctxUpdate, StateManager.createState]
      simp
    rw [hmain]
    simp [alGet_alSet]

theorem cmd_updateState_closure_false_witness :
    ctxUpdate (CtxKind.cmdCtx "form" false) "u"
        [("u", ⟨"x", "y", 0, 0, JFields.nil⟩)] "email" none =
      (false, [("u", ⟨"x", "y", 0, 0, JFields.nil⟩)]) ∧
    alGet (handleMessage
        [("form", ⟨2, [HandlerAction.createState "name"
            (some (JFields.cons "k" (JValue.num 1) JFields.nil)),
          HandlerAction.updateState "email" (some JFields.nil)]⟩)]
        ⟨some "u", some (MsgBody.conversation "!form")⟩ 42 true
        ⟨[], 0, 0, [], []⟩).states "u" =
      some ⟨"form", "name", 42, 42, JFields.cons "k" (JValue.num 1) JFields.nil⟩ := by
  constructor
  · exact cmd_updateState_closure_false.1 "form" "u"
      [("u", ⟨"x", "y", 0, 0, JFields.nil⟩)] "email" none
  · have hc := cmd_updateState_closure_false.2
      [("form", ⟨2, [HandlerAction.createState "name"
          (some (JFields.cons "k" (JValue.num 1) JFields.nil)),
        HandlerAction.updateState "email" (some JFields.nil)]⟩)]
      42 true ⟨[], 0, 0, [], []⟩ "u" (MsgBody.conversation "!form")
      ⟨2, [HandlerAction.createState "name"
          (some (JFields.cons "k" (JValue.num 1) JFields.nil)),
        HandlerAction.updateState "email" (some JFields.nil)]⟩
      "name" "email" (some (JFields.cons "k" (JValue.num 1) JFields.nil)) (some JFields.nil)
      (by decide) (by decide) (by decide) (by decide) (by decide) (by decide) (by decide)
    exact hc

end WaBot
